import Mathlib

/-!
Shallow structural validity of Lua syntax-tree nodes

A verification development for `luasyntax/tree/valid.go` of FiveMCompiler.
Every `IsValid` method of the Go file is embedded as a Lean function of the
same name on a record of the same fields; the properties stated in the
specification are then proved about these functions.

Conventions of the embedding:

* a Go interface field (a child node) is an `Option`: `none` is the nil
  interface, `some c` a populated child;
* a Go pointer field that the code compares with `nil` is an `Option` too;
* a Go slice is a `List`; `len` is `List.length` cast to `Int`, so that
  `len(items)-1` is `-1` for the empty slice, as in Go;
* a `for ... range` loop that returns `false` at the first failing element
  and falls through otherwise is `List.all`.
-/

set_option autoImplicit false

namespace token

/-- Modelled from the spec: the closed enumeration of lexical categories of
the `token` package, which is not among the source files. `INVALID` is the
designated absent/unfilled sentinel (the zero value of the Go type). -/
inductive TokenType where
  | INVALID | EOF | SPACE | COMMENT | LONGCOMMENT
  | NAME | NUMBERFLOAT | NUMBERHEX | STRING | LONGSTRING
  | SEMICOLON | ASSIGN | COMMA | DOT | COLON
  | LBRACK | RBRACK | VARARG | LPAREN | RPAREN | LBRACE | RBRACE
  | ADD | SUB | MUL | DIV | MOD | EXP | CONCAT | LENGTH
  | EQ | NEQ | LT | LEQ | GT | GEQ
  | DO | END | WHILE | REPEAT | UNTIL | IF | THEN | ELSEIF | ELSE
  | FOR | IN | FUNCTION | LOCAL | RETURN | BREAK
  | NIL | TRUE | FALSE | AND | OR | NOT
  deriving DecidableEq, Repr

open TokenType

/-- Modelled from the spec: the numeric-literal family of the `token`
package (`Type.IsNumber`), which is not among the source files. -/
def TokenType.IsNumber : TokenType → Bool
  | NUMBERFLOAT | NUMBERHEX => true
  | _ => false

/-- Modelled from the spec: the string-literal family of the `token`
package (`Type.IsString`), which is not among the source files. -/
def TokenType.IsString : TokenType → Bool
  | STRING | LONGSTRING => true
  | _ => false

/-- Modelled from the spec: the boolean-keyword family of the `token`
package (`Type.IsBool`), which is not among the source files. -/
def TokenType.IsBool : TokenType → Bool
  | TRUE | FALSE => true
  | _ => false

/-- Modelled from the spec: the unary-operator family of the `token`
package (`Type.IsUnary`), which is not among the source files. -/
def TokenType.IsUnary : TokenType → Bool
  | SUB | NOT | LENGTH => true
  | _ => false

/-- Modelled from the spec: the binary-operator family of the `token`
package (`Type.IsBinary`), which is not among the source files. -/
def TokenType.IsBinary : TokenType → Bool
  | ADD | SUB | MUL | DIV | MOD | EXP | CONCAT
  | EQ | NEQ | LT | LEQ | GT | GEQ | AND | OR => true
  | _ => false

end token

namespace tree

open token token.TokenType

/-- Modelled from the spec: the classified lexical atom (type, lexeme,
position); its Go declaration is not among the source files. The field
`Typ` is the Go field `Type`. -/
structure Token where
  Typ : TokenType
  Lexeme : String
  Position : Nat
  deriving DecidableEq, Repr

/-! ## Node records

The Go declarations of the node types live in a file that is not among the
sources; the records below carry the fields that `valid.go` reads, plus the
child fields the specification names. They are parametric in the type `χ`
of "any child node", which is instantiated by `Node` further down. -/

/-- Modelled from the spec: statement sequence, items with terminators. -/
structure Block (χ : Type) where
  Items : List (Option χ)
  Seps : List Token

/-- Modelled from the spec: a source file, a body and its terminal token. -/
structure File (χ : Type) where
  Body : Block χ
  EOFToken : Token

/-- Modelled from the spec: comma-separated expressions. -/
structure ExprList (χ : Type) where
  Items : List (Option χ)
  Seps : List Token

/-- Modelled from the spec: comma-separated name tokens. -/
structure NameList where
  Items : List Token
  Seps : List Token

/-- Modelled from the spec: numeric literal. -/
structure NumberExpr where
  NumberToken : Token

/-- Modelled from the spec: string literal. -/
structure StringExpr where
  StringToken : Token

/-- Modelled from the spec: the `nil` literal. -/
structure NilExpr where
  NilToken : Token

/-- Modelled from the spec: boolean literal. -/
structure BoolExpr where
  BoolToken : Token

/-- Modelled from the spec: the `...` expression. -/
structure VarArgExpr where
  VarArgToken : Token

/-- Modelled from the spec: unary operator expression. -/
structure UnopExpr (χ : Type) where
  UnopToken : Token
  Operand : Option χ

/-- Modelled from the spec: binary operator expression. -/
structure BinopExpr (χ : Type) where
  Left : Option χ
  BinopToken : Token
  Right : Option χ

/-- Modelled from the spec: parenthesised expression. -/
structure ParenExpr (χ : Type) where
  LParenToken : Token
  Value : Option χ
  RParenToken : Token

/-- Modelled from the spec: variable reference. -/
structure VariableExpr where
  NameToken : Token

/-- Modelled from the spec: table-entry list with optional trailing
separator. -/
structure EntryList (χ : Type) where
  Items : List (Option χ)
  Seps : List Token

/-- Modelled from the spec: table constructor. -/
structure TableCtor (χ : Type) where
  LBraceToken : Token
  Entries : EntryList χ
  RBraceToken : Token

/-- Modelled from the spec: table entry `[key] = value`. -/
structure IndexEntry (χ : Type) where
  LBrackToken : Token
  Key : Option χ
  RBrackToken : Token
  AssignToken : Token
  Value : Option χ

/-- Modelled from the spec: table entry `name = value`. -/
structure FieldEntry (χ : Type) where
  NameToken : Token
  AssignToken : Token
  Value : Option χ

/-- Modelled from the spec: positional table entry. -/
structure ValueEntry (χ : Type) where
  Value : Option χ

/-- Modelled from the spec: function expression; `Params` is a pointer in
Go and may be nil. -/
structure FunctionExpr (χ : Type) where
  FuncToken : Token
  LParenToken : Token
  Params : Option NameList
  VarArgSepToken : Token
  VarArgToken : Token
  RParenToken : Token
  Body : Block χ
  EndToken : Token

/-- Modelled from the spec: field access `value.name`. -/
structure FieldExpr (χ : Type) where
  Value : Option χ
  DotToken : Token
  NameToken : Token

/-- Modelled from the spec: index access `value[index]`. -/
structure IndexExpr (χ : Type) where
  Value : Option χ
  LBrackToken : Token
  Index : Option χ
  RBrackToken : Token

/-- Modelled from the spec: method call `value:name args`. -/
structure MethodExpr (χ : Type) where
  Value : Option χ
  ColonToken : Token
  NameToken : Token
  Args : Option χ

/-- Modelled from the spec: call `value args`. -/
structure CallExpr (χ : Type) where
  Value : Option χ
  Args : Option χ

/-- Modelled from the spec: parenthesised argument list. -/
structure ListArgs (χ : Type) where
  LParenToken : Token
  Values : Option (ExprList χ)
  RParenToken : Token

/-- Modelled from the spec: single table-constructor argument. -/
structure TableArg (χ : Type) where
  Value : TableCtor χ

/-- Modelled from the spec: single string-literal argument. -/
structure StringArg where
  Value : StringExpr

/-- Modelled from the spec: `do ... end`. -/
structure DoStmt (χ : Type) where
  DoToken : Token
  Body : Block χ
  EndToken : Token

/-- Modelled from the spec: assignment statement. -/
structure AssignStmt (χ : Type) where
  Left : ExprList χ
  AssignToken : Token
  Right : ExprList χ

/-- Modelled from the spec: call used as a statement. -/
structure CallStmt (χ : Type) where
  Call : Option χ

/-- Modelled from the spec: `elseif cond then ...` clause. -/
structure ElseIfClause (χ : Type) where
  ElseIfToken : Token
  Cond : Option χ
  ThenToken : Token
  Body : Block χ

/-- Modelled from the spec: `else ...` clause. -/
structure ElseClause (χ : Type) where
  ElseToken : Token
  Body : Block χ

/-- Modelled from the spec: `if` statement with its optional clauses. -/
structure IfStmt (χ : Type) where
  IfToken : Token
  Cond : Option χ
  ThenToken : Token
  Body : Block χ
  ElseIf : List (ElseIfClause χ)
  Else : Option (ElseClause χ)
  EndToken : Token

/-- Modelled from the spec: numeric `for`. -/
structure NumericForStmt (χ : Type) where
  ForToken : Token
  NameToken : Token
  AssignToken : Token
  Min : Option χ
  MaxSepToken : Token
  Max : Option χ
  StepSepToken : Token
  Step : Option χ
  DoToken : Token
  Body : Block χ
  EndToken : Token

/-- Modelled from the spec: generic `for`. -/
structure GenericForStmt (χ : Type) where
  ForToken : Token
  Names : NameList
  InToken : Token
  Exprs : ExprList χ
  DoToken : Token
  Body : Block χ
  EndToken : Token

/-- Modelled from the spec: `while` loop. -/
structure WhileStmt (χ : Type) where
  WhileToken : Token
  Cond : Option χ
  DoToken : Token
  Body : Block χ
  EndToken : Token

/-- Modelled from the spec: `repeat ... until cond`. -/
structure RepeatStmt (χ : Type) where
  RepeatToken : Token
  Body : Block χ
  UntilToken : Token
  Cond : Option χ

/-- Modelled from the spec: `local` declaration; `Values` is a pointer in
Go and may be nil. -/
structure LocalVarStmt (χ : Type) where
  LocalToken : Token
  Names : NameList
  AssignToken : Token
  Values : Option (ExprList χ)

/-- Modelled from the spec: `local function name ...`. -/
structure LocalFunctionStmt (χ : Type) where
  LocalToken : Token
  NameToken : Token
  Func : FunctionExpr χ

/-- Modelled from the spec: dot-separated qualified function name with an
optional method part. -/
structure FuncNameList where
  Items : List Token
  Seps : List Token
  ColonToken : Token
  MethodToken : Token

/-- Modelled from the spec: `function name ...` statement. -/
structure FunctionStmt (χ : Type) where
  Name : FuncNameList
  Func : FunctionExpr χ

/-- Modelled from the spec: `break`. -/
structure BreakStmt where
  BreakToken : Token

/-- Modelled from the spec: `return` with optional values. -/
structure ReturnStmt (χ : Type) where
  ReturnToken : Token
  Values : Option (ExprList χ)

/-! ## The three primitive checks (`valid.go`, lines 19-21) -/

/-- Presence test `isv`: the interface value is not nil. -/
def isv {α : Type} (i : Option α) : Bool := i.isSome

/-- Token test `ist`: the token has the expected type. -/
def ist (tok : Token) (typ : TokenType) : Bool := tok.Typ == typ

/-- Token test `ist2`: the token has one of two types. -/
def ist2 (tok : Token) (a b : TokenType) : Bool := tok.Typ == a || tok.Typ == b

/-- Go `len` of a slice, as a signed integer. -/
def len {α : Type} (xs : List α) : Int := (xs.length : Int)

/-! ## The validity predicates, one per node variant -/

/-- `File.IsValid` (`valid.go`, lines 23-25). -/
def File.IsValid {χ : Type} (f : File χ) : Bool :=
  ist f.EOFToken EOF

/-- `Block.IsValid` (`valid.go`, lines 27-42). -/
def Block.IsValid {χ : Type} (b : Block χ) : Bool :=
  if len b.Seps ≠ len b.Items then false
  else if !(b.Items.all fun stmt => isv stmt) then false
  else if !(b.Seps.all fun sep => ist2 sep SEMICOLON INVALID) then false
  else true

/-- `ExprList.IsValid` (`valid.go`, lines 44-59). -/
def ExprList.IsValid {χ : Type} (l : ExprList χ) : Bool :=
  if len l.Items = 0 ∨ len l.Seps ≠ len l.Items - 1 then false
  else if !(l.Items.all fun item => isv item) then false
  else if !(l.Seps.all fun sep => ist sep COMMA) then false
  else true

/-- `NameList.IsValid` (`valid.go`, lines 61-76). -/
def NameList.IsValid (l : NameList) : Bool :=
  if len l.Items = 0 ∨ len l.Seps ≠ len l.Items - 1 then false
  else if !(l.Items.all fun item => ist item NAME) then false
  else if !(l.Seps.all fun sep => ist sep COMMA) then false
  else true

/-- `NumberExpr.IsValid` (`valid.go`, lines 78-80). -/
def NumberExpr.IsValid (e : NumberExpr) : Bool :=
  e.NumberToken.Typ.IsNumber

/-- `StringExpr.IsValid` (`valid.go`, lines 82-84). -/
def StringExpr.IsValid (e : StringExpr) : Bool :=
  e.StringToken.Typ.IsString

/-- `NilExpr.IsValid` (`valid.go`, lines 86-88). -/
def NilExpr.IsValid (e : NilExpr) : Bool :=
  ist e.NilToken NIL

/-- `BoolExpr.IsValid` (`valid.go`, lines 90-92). -/
def BoolExpr.IsValid (e : BoolExpr) : Bool :=
  e.BoolToken.Typ.IsBool

/-- `VarArgExpr.IsValid` (`valid.go`, lines 94-96). -/
def VarArgExpr.IsValid (e : VarArgExpr) : Bool :=
  ist e.VarArgToken VARARG

/-- `UnopExpr.IsValid` (`valid.go`, lines 98-101). -/
def UnopExpr.IsValid {χ : Type} (e : UnopExpr χ) : Bool :=
  e.UnopToken.Typ.IsUnary &&
    isv e.Operand

/-- `BinopExpr.IsValid` (`valid.go`, lines 103-107). -/
def BinopExpr.IsValid {χ : Type} (e : BinopExpr χ) : Bool :=
  isv e.Left &&
    e.BinopToken.Typ.IsBinary &&
    isv e.Right

/-- `ParenExpr.IsValid` (`valid.go`, lines 109-113). -/
def ParenExpr.IsValid {χ : Type} (e : ParenExpr χ) : Bool :=
  ist e.LParenToken LPAREN &&
    isv e.Value &&
    ist e.RParenToken RPAREN

/-- `VariableExpr.IsValid` (`valid.go`, lines 115-117). -/
def VariableExpr.IsValid (e : VariableExpr) : Bool :=
  ist e.NameToken NAME

/-- `TableCtor.IsValid` (`valid.go`, lines 119-122). -/
def TableCtor.IsValid {χ : Type} (e : TableCtor χ) : Bool :=
  ist e.LBraceToken LBRACE &&
    ist e.RBraceToken RBRACE

/-- `EntryList.IsValid` (`valid.go`, lines 124-139). -/
def EntryList.IsValid {χ : Type} (l : EntryList χ) : Bool :=
  if len l.Seps ≠ len l.Items ∧ len l.Seps ≠ len l.Items - 1 then false
  else if !(l.Items.all fun entry => isv entry) then false
  else if !(l.Seps.all fun sep => ist2 sep COMMA SEMICOLON) then false
  else true

/-- `IndexEntry.IsValid` (`valid.go`, lines 141-147). -/
def IndexEntry.IsValid {χ : Type} (e : IndexEntry χ) : Bool :=
  ist e.LBrackToken LBRACK &&
    isv e.Key &&
    ist e.RBrackToken RBRACK &&
    ist e.AssignToken ASSIGN &&
    isv e.Value

/-- `FieldEntry.IsValid` (`valid.go`, lines 149-153). -/
def FieldEntry.IsValid {χ : Type} (e : FieldEntry χ) : Bool :=
  ist e.NameToken NAME &&
    ist e.AssignToken ASSIGN &&
    isv e.Value

/-- `ValueEntry.IsValid` (`valid.go`, lines 155-157). -/
def ValueEntry.IsValid {χ : Type} (e : ValueEntry χ) : Bool :=
  isv e.Value

/-- `FunctionExpr.IsValid` (`valid.go`, lines 159-175). -/
def FunctionExpr.IsValid {χ : Type} (e : FunctionExpr χ) : Bool :=
  if !(ist e.FuncToken FUNCTION &&
      ist e.LParenToken LPAREN &&
      ist e.RParenToken RPAREN &&
      ist e.EndToken END) then false
  else if ist e.VarArgToken VARARG then
    if e.Params.isSome then ist e.VarArgSepToken COMMA
    else ist e.VarArgSepToken INVALID
  else if ist e.VarArgToken INVALID then
    ist e.VarArgSepToken INVALID
  else false

/-- `FieldExpr.IsValid` (`valid.go`, lines 177-181). -/
def FieldExpr.IsValid {χ : Type} (e : FieldExpr χ) : Bool :=
  isv e.Value &&
    ist e.DotToken DOT &&
    ist e.NameToken NAME

/-- `IndexExpr.IsValid` (`valid.go`, lines 183-188). -/
def IndexExpr.IsValid {χ : Type} (e : IndexExpr χ) : Bool :=
  isv e.Value &&
    ist e.LBrackToken LBRACK &&
    isv e.Index &&
    ist e.RBrackToken RBRACK

/-- `MethodExpr.IsValid` (`valid.go`, lines 190-195). -/
def MethodExpr.IsValid {χ : Type} (e : MethodExpr χ) : Bool :=
  isv e.Value &&
    ist e.ColonToken COLON &&
    ist e.NameToken NAME &&
    isv e.Args

/-- `CallExpr.IsValid` (`valid.go`, lines 197-200). -/
def CallExpr.IsValid {χ : Type} (e : CallExpr χ) : Bool :=
  isv e.Value &&
    isv e.Args

/-- `ListArgs.IsValid` (`valid.go`, lines 202-205). -/
def ListArgs.IsValid {χ : Type} (c : ListArgs χ) : Bool :=
  ist c.LParenToken LPAREN &&
    ist c.RParenToken RPAREN

/-- `TableArg.IsValid` (`valid.go`, lines 207-209). -/
def TableArg.IsValid {χ : Type} (_c : TableArg χ) : Bool :=
  true

/-- `StringArg.IsValid` (`valid.go`, lines 211-213). -/
def StringArg.IsValid (_c : StringArg) : Bool :=
  true

/-- `DoStmt.IsValid` (`valid.go`, lines 215-218). -/
def DoStmt.IsValid {χ : Type} (s : DoStmt χ) : Bool :=
  ist s.DoToken DO &&
    ist s.EndToken END

/-- `AssignStmt.IsValid` (`valid.go`, lines 220-222). -/
def AssignStmt.IsValid {χ : Type} (s : AssignStmt χ) : Bool :=
  ist s.AssignToken ASSIGN

/-- `CallStmt.IsValid` (`valid.go`, lines 224-226). -/
def CallStmt.IsValid {χ : Type} (s : CallStmt χ) : Bool :=
  isv s.Call

/-- `IfStmt.IsValid` (`valid.go`, lines 228-233). -/
def IfStmt.IsValid {χ : Type} (s : IfStmt χ) : Bool :=
  ist s.IfToken IF &&
    isv s.Cond &&
    ist s.ThenToken THEN &&
    ist s.EndToken END

/-- `ElseIfClause.IsValid` (`valid.go`, lines 235-239). -/
def ElseIfClause.IsValid {χ : Type} (c : ElseIfClause χ) : Bool :=
  ist c.ElseIfToken ELSEIF &&
    isv c.Cond &&
    ist c.ThenToken THEN

/-- `ElseClause.IsValid` (`valid.go`, lines 241-243). -/
def ElseClause.IsValid {χ : Type} (c : ElseClause χ) : Bool :=
  ist c.ElseToken ELSE

/-- `NumericForStmt.IsValid` (`valid.go`, lines 245-262). -/
def NumericForStmt.IsValid {χ : Type} (s : NumericForStmt χ) : Bool :=
  if !(ist s.ForToken FOR &&
      ist s.NameToken NAME &&
      ist s.AssignToken ASSIGN &&
      isv s.Min &&
      ist s.MaxSepToken COMMA &&
      isv s.Max &&
      ist s.DoToken DO &&
      ist s.EndToken END) then false
  else if ist s.StepSepToken COMMA then
    isv s.Step
  else if ist s.StepSepToken INVALID then
    !isv s.Step
  else false

/-- `GenericForStmt.IsValid` (`valid.go`, lines 264-269). -/
def GenericForStmt.IsValid {χ : Type} (s : GenericForStmt χ) : Bool :=
  ist s.ForToken FOR &&
    ist s.InToken IN &&
    ist s.DoToken DO &&
    ist s.EndToken END

/-- `WhileStmt.IsValid` (`valid.go`, lines 271-276). -/
def WhileStmt.IsValid {χ : Type} (s : WhileStmt χ) : Bool :=
  ist s.WhileToken WHILE &&
    isv s.Cond &&
    ist s.DoToken DO &&
    ist s.EndToken END

/-- `RepeatStmt.IsValid` (`valid.go`, lines 278-282). -/
def RepeatStmt.IsValid {χ : Type} (s : RepeatStmt χ) : Bool :=
  ist s.RepeatToken REPEAT &&
    ist s.UntilToken UNTIL &&
    isv s.Cond

/-- `LocalVarStmt.IsValid` (`valid.go`, lines 284-294). -/
def LocalVarStmt.IsValid {χ : Type} (s : LocalVarStmt χ) : Bool :=
  if !ist s.LocalToken LOCAL then false
  else if ist s.AssignToken ASSIGN then
    s.Values.isSome
  else if ist s.AssignToken INVALID then
    s.Values.isNone
  else false

/-- `LocalFunctionStmt.IsValid` (`valid.go`, lines 296-299). -/
def LocalFunctionStmt.IsValid {χ : Type} (s : LocalFunctionStmt χ) : Bool :=
  ist s.LocalToken LOCAL &&
    ist s.NameToken NAME

/-- `FunctionStmt.IsValid` (`valid.go`, lines 301-303). -/
def FunctionStmt.IsValid {χ : Type} (_s : FunctionStmt χ) : Bool :=
  true

/-- `FuncNameList.IsValid` (`valid.go`, lines 305-325). -/
def FuncNameList.IsValid (l : FuncNameList) : Bool :=
  if len l.Items = 0 ∨ len l.Seps ≠ len l.Items - 1 then false
  else if !(l.Items.all fun item => ist item NAME) then false
  else if !(l.Seps.all fun sep => ist sep DOT) then false
  else if ist l.ColonToken COLON then
    ist l.MethodToken NAME
  else if ist l.ColonToken INVALID then
    ist l.MethodToken INVALID
  else false

/-- `BreakStmt.IsValid` (`valid.go`, lines 327-329). -/
def BreakStmt.IsValid (s : BreakStmt) : Bool :=
  ist s.BreakToken BREAK

/-- `ReturnStmt.IsValid` (`valid.go`, lines 331-333). -/
def ReturnStmt.IsValid {χ : Type} (s : ReturnStmt χ) : Bool :=
  ist s.ReturnToken RETURN

/-! ## The closed union of node variants -/

set_option maxHeartbeats 4000000 in
/-- Modelled from the spec: the polymorphic "any node" capability as a
closed tagged union over all variants; the Go interface declarations are not
among the source files. Child fields of every record hold this union. -/
inductive Node where
  | file (n : File Node)
  | block (n : Block Node)
  | exprList (n : ExprList Node)
  | nameList (n : NameList)
  | numberExpr (n : NumberExpr)
  | stringExpr (n : StringExpr)
  | nilExpr (n : NilExpr)
  | boolExpr (n : BoolExpr)
  | varArgExpr (n : VarArgExpr)
  | unopExpr (n : UnopExpr Node)
  | binopExpr (n : BinopExpr Node)
  | parenExpr (n : ParenExpr Node)
  | variableExpr (n : VariableExpr)
  | tableCtor (n : TableCtor Node)
  | entryList (n : EntryList Node)
  | indexEntry (n : IndexEntry Node)
  | fieldEntry (n : FieldEntry Node)
  | valueEntry (n : ValueEntry Node)
  | functionExpr (n : FunctionExpr Node)
  | fieldExpr (n : FieldExpr Node)
  | indexExpr (n : IndexExpr Node)
  | methodExpr (n : MethodExpr Node)
  | callExpr (n : CallExpr Node)
  | listArgs (n : ListArgs Node)
  | tableArg (n : TableArg Node)
  | stringArg (n : StringArg)
  | doStmt (n : DoStmt Node)
  | assignStmt (n : AssignStmt Node)
  | callStmt (n : CallStmt Node)
  | ifStmt (n : IfStmt Node)
  | elseIfClause (n : ElseIfClause Node)
  | elseClause (n : ElseClause Node)
  | numericForStmt (n : NumericForStmt Node)
  | genericForStmt (n : GenericForStmt Node)
  | whileStmt (n : WhileStmt Node)
  | repeatStmt (n : RepeatStmt Node)
  | localVarStmt (n : LocalVarStmt Node)
  | localFunctionStmt (n : LocalFunctionStmt Node)
  | functionStmt (n : FunctionStmt Node)
  | funcNameList (n : FuncNameList)
  | breakStmt (n : BreakStmt)
  | returnStmt (n : ReturnStmt Node)

/-- The `IsValid` method of the node interface: dynamic dispatch to the
predicate of the variant. It never descends into a child. -/
def Node.IsValid : Node → Bool
  | .file n => n.IsValid
  | .block n => n.IsValid
  | .exprList n => n.IsValid
  | .nameList n => n.IsValid
  | .numberExpr n => n.IsValid
  | .stringExpr n => n.IsValid
  | .nilExpr n => n.IsValid
  | .boolExpr n => n.IsValid
  | .varArgExpr n => n.IsValid
  | .unopExpr n => n.IsValid
  | .binopExpr n => n.IsValid
  | .parenExpr n => n.IsValid
  | .variableExpr n => n.IsValid
  | .tableCtor n => n.IsValid
  | .entryList n => n.IsValid
  | .indexEntry n => n.IsValid
  | .fieldEntry n => n.IsValid
  | .valueEntry n => n.IsValid
  | .functionExpr n => n.IsValid
  | .fieldExpr n => n.IsValid
  | .indexExpr n => n.IsValid
  | .methodExpr n => n.IsValid
  | .callExpr n => n.IsValid
  | .listArgs n => n.IsValid
  | .tableArg n => n.IsValid
  | .stringArg n => n.IsValid
  | .doStmt n => n.IsValid
  | .assignStmt n => n.IsValid
  | .callStmt n => n.IsValid
  | .ifStmt n => n.IsValid
  | .elseIfClause n => n.IsValid
  | .elseClause n => n.IsValid
  | .numericForStmt n => n.IsValid
  | .genericForStmt n => n.IsValid
  | .whileStmt n => n.IsValid
  | .repeatStmt n => n.IsValid
  | .localVarStmt n => n.IsValid
  | .localFunctionStmt n => n.IsValid
  | .functionStmt n => n.IsValid
  | .funcNameList n => n.IsValid
  | .breakStmt n => n.IsValid
  | .returnStmt n => n.IsValid

end tree

/-! ## Concrete nodes used to evaluate the predicates -/

namespace tree

open token token.TokenType

/-- A token of the given type with an empty lexeme at position 0. -/
def tok (t : TokenType) : Token := ⟨t, "", 0⟩

/-- The variable reference `A`. -/
def varA : Node := .variableExpr ⟨⟨NAME, "A", 0⟩⟩

/-- The variable reference `B`. -/
def varB : Node := .variableExpr ⟨⟨NAME, "B", 2⟩⟩

/-- The numeric literal `1`. -/
def numOne : Node := .numberExpr ⟨⟨NUMBERFLOAT, "1", 8⟩⟩

/-- The numeric literal `10`. -/
def numTen : Node := .numberExpr ⟨⟨NUMBERFLOAT, "10", 11⟩⟩

/-- The loop `for i = 1, 10 do end` with a chosen step-separator token type
and a chosen step child. -/
def forLoop (stepSep : TokenType) (step : Option Node) : NumericForStmt Node :=
  { ForToken := ⟨FOR, "for", 0⟩
    NameToken := ⟨NAME, "i", 4⟩
    AssignToken := ⟨ASSIGN, "=", 6⟩
    Min := some numOne
    MaxSepToken := ⟨COMMA, ",", 9⟩
    Max := some numTen
    StepSepToken := tok stepSep
    Step := step
    DoToken := ⟨DO, "do", 14⟩
    Body := ⟨[], []⟩
    EndToken := ⟨END, "end", 17⟩ }

/-- The function expression `function(...) end` shape with chosen parameter
list, vararg separator type and vararg marker type. -/
def funcExpr (params : Option NameList) (sep marker : TokenType) : FunctionExpr Node :=
  { FuncToken := tok FUNCTION
    LParenToken := tok LPAREN
    Params := params
    VarArgSepToken := tok sep
    VarArgToken := tok marker
    RParenToken := tok RPAREN
    Body := ⟨[], []⟩
    EndToken := tok END }

/-- The name list `a`. -/
def oneName : NameList := ⟨[⟨NAME, "a", 0⟩], []⟩

/-- The declaration `local a` with a chosen assign-token type and a chosen
value list. -/
def localVar (assign : TokenType) (values : Option (ExprList Node)) : LocalVarStmt Node :=
  { LocalToken := tok LOCAL
    Names := oneName
    AssignToken := tok assign
    Values := values }

/-- The statement `for in do end`: a generic `for` with the four anchor
tokens and no names and no expressions. -/
def bareGenericFor : GenericForStmt Node :=
  { ForToken := ⟨FOR, "for", 0⟩
    Names := ⟨[], []⟩
    InToken := ⟨IN, "in", 4⟩
    Exprs := ⟨[], []⟩
    DoToken := ⟨DO, "do", 7⟩
    Body := ⟨[], []⟩
    EndToken := ⟨END, "end", 10⟩ }

/-- The empty argument list `()`. -/
def emptyArgs : Node := .listArgs ⟨tok LPAREN, none, tok RPAREN⟩

/-- The method call `A:m()` with a chosen type for the colon token. -/
def methodCall (colon : TokenType) : MethodExpr Node :=
  { Value := some varA
    ColonToken := tok colon
    NameToken := ⟨NAME, "m", 2⟩
    Args := some emptyArgs }

/-- The file built from the token stream that holds only end-of-input. -/
def minimalFile : File Node := ⟨⟨[], []⟩, tok EOF⟩

/-- A string argument whose token is a name, not a string literal. -/
def nameAsStringArg : StringArg := ⟨⟨⟨NAME, "s", 0⟩⟩⟩

/-- The qualified function name with no items at all. -/
def emptyFuncName : FuncNameList := ⟨[], [], tok INVALID, tok INVALID⟩

/-- A function statement whose name list is empty. -/
def namelessFunction : FunctionStmt Node := ⟨emptyFuncName, funcExpr none INVALID INVALID⟩

/-- The expression list whose single item is the nil interface. -/
def absentItemList : ExprList Node := ⟨[none], []⟩

end tree

/-! ## Theorems -/

namespace tree

open token token.TokenType

/-! ### Unfolding lemmas for the primitive checks -/

theorem ist_eq_true (tok : Token) (typ : TokenType) :
    ist tok typ = true ↔ tok.Typ = typ := by
  simp [ist]

theorem ist2_eq_true (tok : Token) (a b : TokenType) :
    ist2 tok a b = true ↔ tok.Typ = a ∨ tok.Typ = b := by
  simp [ist2]

theorem isv_eq_true {α : Type} (i : Option α) :
    isv i = true ↔ i ≠ none := by
  cases i <;> simp [isv]

theorem len_eq_zero {α : Type} (xs : List α) : len xs = 0 ↔ xs = [] := by
  cases xs <;> simp [len]
  omega

/-! ### Characterisations of the separated-list predicates -/

theorem ExprList_IsValid_iff {χ : Type} (l : ExprList χ) :
    l.IsValid = true ↔
      l.Items ≠ [] ∧ len l.Seps = len l.Items - 1 ∧
      (∀ item ∈ l.Items, item ≠ none) ∧ (∀ sep ∈ l.Seps, sep.Typ = COMMA) := by
  unfold ExprList.IsValid
  by_cases h0 : len l.Items = 0 ∨ len l.Seps ≠ len l.Items - 1
  · rw [if_pos h0]
    rcases h0 with h0 | h0
    · simp [(len_eq_zero _).1 h0]
    · simp [h0]
  · rw [if_neg h0]
    simp only [not_or, not_not, len_eq_zero] at h0
    simp [h0.1, h0.2, List.all_eq_true, isv_eq_true, ist_eq_true]

theorem NameList_IsValid_iff (l : NameList) :
    l.IsValid = true ↔
      l.Items ≠ [] ∧ len l.Seps = len l.Items - 1 ∧
      (∀ item ∈ l.Items, item.Typ = NAME) ∧ (∀ sep ∈ l.Seps, sep.Typ = COMMA) := by
  unfold NameList.IsValid
  by_cases h0 : len l.Items = 0 ∨ len l.Seps ≠ len l.Items - 1
  · rw [if_pos h0]
    rcases h0 with h0 | h0
    · simp [(len_eq_zero _).1 h0]
    · simp [h0]
  · rw [if_neg h0]
    simp only [not_or, not_not, len_eq_zero] at h0
    simp [h0.1, h0.2, List.all_eq_true, ist_eq_true]

theorem Block_IsValid_iff {χ : Type} (b : Block χ) :
    b.IsValid = true ↔
      len b.Seps = len b.Items ∧
      (∀ stmt ∈ b.Items, stmt ≠ none) ∧
      (∀ sep ∈ b.Seps, sep.Typ = SEMICOLON ∨ sep.Typ = INVALID) := by
  unfold Block.IsValid
  by_cases h0 : len b.Seps ≠ len b.Items
  · rw [if_pos h0]
    simp [h0]
  · rw [if_neg h0]
    simp only [not_not] at h0
    simp [h0, List.all_eq_true, isv_eq_true, ist2_eq_true]
    intro _
    constructor <;> intro h x hx <;> have := h x hx <;> tauto

theorem EntryList_IsValid_iff {χ : Type} (l : EntryList χ) :
    l.IsValid = true ↔
      (len l.Seps = len l.Items ∨ len l.Seps = len l.Items - 1) ∧
      (∀ entry ∈ l.Items, entry ≠ none) ∧
      (∀ sep ∈ l.Seps, sep.Typ = COMMA ∨ sep.Typ = SEMICOLON) := by
  unfold EntryList.IsValid
  by_cases h0 : len l.Seps ≠ len l.Items ∧ len l.Seps ≠ len l.Items - 1
  · rw [if_pos h0]
    simp [h0.1, h0.2]
  · rw [if_neg h0]
    have h1 : len l.Seps = len l.Items ∨ len l.Seps = len l.Items - 1 := by
      by_cases h : len l.Seps = len l.Items
      · exact Or.inl h
      · by_cases h2 : len l.Seps = len l.Items - 1
        · exact Or.inr h2
        · exact absurd ⟨h, h2⟩ h0
    simp [h1, List.all_eq_true, isv_eq_true, ist2_eq_true]
    intro _
    constructor <;> intro h x hx <;> have := h x hx <;> tauto

theorem FuncNameList_IsValid_iff (l : FuncNameList) :
    l.IsValid = true ↔
      l.Items ≠ [] ∧ len l.Seps = len l.Items - 1 ∧
      (∀ item ∈ l.Items, item.Typ = NAME) ∧ (∀ sep ∈ l.Seps, sep.Typ = DOT) ∧
      ((l.ColonToken.Typ = COLON ∧ l.MethodToken.Typ = NAME) ∨
        (l.ColonToken.Typ = INVALID ∧ l.MethodToken.Typ = INVALID)) := by
  unfold FuncNameList.IsValid
  by_cases h0 : len l.Items = 0 ∨ len l.Seps ≠ len l.Items - 1
  · rw [if_pos h0]
    rcases h0 with h0 | h0
    · simp [(len_eq_zero _).1 h0]
    · simp [h0]
  · rw [if_neg h0]
    simp only [not_or, not_not, len_eq_zero] at h0
    by_cases hc : l.ColonToken.Typ = COLON
    · simp [h0.1, h0.2, List.all_eq_true, ist_eq_true, ist, hc]
    · by_cases hi : l.ColonToken.Typ = INVALID
      · simp [h0.1, h0.2, List.all_eq_true, ist_eq_true, ist, hi]
      · simp [h0.1, h0.2, List.all_eq_true, ist_eq_true, ist, hc, hi]

/-! ### Characterisations of the optional-clause predicates -/

theorem FunctionExpr_IsValid_iff {χ : Type} (e : FunctionExpr χ) :
    e.IsValid = true ↔
      e.FuncToken.Typ = FUNCTION ∧ e.LParenToken.Typ = LPAREN ∧
      e.RParenToken.Typ = RPAREN ∧ e.EndToken.Typ = END ∧
      ((e.VarArgToken.Typ = VARARG ∧ e.Params ≠ none ∧ e.VarArgSepToken.Typ = COMMA) ∨
        (e.VarArgToken.Typ = VARARG ∧ e.Params = none ∧ e.VarArgSepToken.Typ = INVALID) ∨
        (e.VarArgToken.Typ = INVALID ∧ e.VarArgSepToken.Typ = INVALID)) := by
  unfold FunctionExpr.IsValid
  by_cases hA : (ist e.FuncToken FUNCTION && ist e.LParenToken LPAREN &&
      ist e.RParenToken RPAREN && ist e.EndToken END) = true
  · have hA2 := hA
    simp only [Bool.and_eq_true, ist_eq_true] at hA2
    obtain ⟨⟨⟨h1, h2⟩, h3⟩, h4⟩ := hA2
    simp only [hA, Bool.not_true, Bool.false_eq_true, if_false, h1, h2, h3, h4, true_and]
    by_cases hv : e.VarArgToken.Typ = VARARG
    · cases hp : e.Params <;> simp [ist, hv]
    · by_cases hi : e.VarArgToken.Typ = INVALID
      · simp [ist, hi]
      · simp [ist, hv, hi]
  · have hA2 := hA
    simp only [Bool.and_eq_true, ist_eq_true] at hA2
    simp only [hA]
    simp
    intro h1 h2 h3 h4
    exact absurd ⟨⟨⟨h1, h2⟩, h3⟩, h4⟩ hA2

theorem NumericForStmt_IsValid_iff {χ : Type} (s : NumericForStmt χ) :
    s.IsValid = true ↔
      (s.ForToken.Typ = FOR ∧ s.NameToken.Typ = NAME ∧ s.AssignToken.Typ = ASSIGN ∧
        s.Min ≠ none ∧ s.MaxSepToken.Typ = COMMA ∧ s.Max ≠ none ∧
        s.DoToken.Typ = DO ∧ s.EndToken.Typ = END) ∧
      ((s.StepSepToken.Typ = COMMA ∧ s.Step ≠ none) ∨
        (s.StepSepToken.Typ = INVALID ∧ s.Step = none)) := by
  unfold NumericForStmt.IsValid
  by_cases hA : (ist s.ForToken FOR && ist s.NameToken NAME && ist s.AssignToken ASSIGN &&
      isv s.Min && ist s.MaxSepToken COMMA && isv s.Max && ist s.DoToken DO &&
      ist s.EndToken END) = true
  · have hA2 := hA
    simp only [Bool.and_eq_true, ist_eq_true, isv_eq_true] at hA2
    obtain ⟨⟨⟨⟨⟨⟨⟨h1, h2⟩, h3⟩, h4⟩, h5⟩, h6⟩, h7⟩, h8⟩ := hA2
    simp only [hA, Bool.not_true, Bool.false_eq_true, if_false]
    have hM : (s.ForToken.Typ = FOR ∧ s.NameToken.Typ = NAME ∧ s.AssignToken.Typ = ASSIGN ∧
        s.Min ≠ none ∧ s.MaxSepToken.Typ = COMMA ∧ s.Max ≠ none ∧
        s.DoToken.Typ = DO ∧ s.EndToken.Typ = END) := ⟨h1, h2, h3, h4, h5, h6, h7, h8⟩
    simp only [hM, true_and]
    by_cases hc : s.StepSepToken.Typ = COMMA
    · cases hp : s.Step <;> simp [ist, isv, hc, h4, h6]
    · by_cases hi : s.StepSepToken.Typ = INVALID
      · cases hp : s.Step <;> simp [ist, isv, hi, h4, h6]
      · simp [ist, hc, hi]
  · have hA2 := hA
    simp only [Bool.and_eq_true, ist_eq_true, isv_eq_true] at hA2
    simp only [hA]
    simp
    intro h1 h2 h3 h4 h5 h6 h7 h8
    exact absurd ⟨⟨⟨⟨⟨⟨⟨h1, h2⟩, h3⟩, h4⟩, h5⟩, h6⟩, h7⟩, h8⟩ hA2

theorem LocalVarStmt_IsValid_iff {χ : Type} (s : LocalVarStmt χ) :
    s.IsValid = true ↔
      s.LocalToken.Typ = LOCAL ∧
      ((s.AssignToken.Typ = ASSIGN ∧ s.Values ≠ none) ∨
        (s.AssignToken.Typ = INVALID ∧ s.Values = none)) := by
  unfold LocalVarStmt.IsValid
  by_cases hl : s.LocalToken.Typ = LOCAL
  · by_cases hc : s.AssignToken.Typ = ASSIGN
    · cases hp : s.Values <;> simp [ist, hl, hc]
    · by_cases hi : s.AssignToken.Typ = INVALID
      · cases hp : s.Values <;> simp [ist, hl, hi]
      · simp [ist, hl, hc, hi]
  · simp [ist, hl]

/-! ### Shallowness: C1 -/

/-- C2, as stated, fails: the list whose single item is absent has one item,
`1 - 1 = 0` separators, all of them commas, and yet `ExprList.IsValid`
returns false, because the code also tests every item for presence. -/
theorem ExprList_arity_law_ignoring_presence_fails :
    1 ≤ absentItemList.Items.length ∧
    (absentItemList.Seps.length : Int) = (absentItemList.Items.length : Int) - 1 ∧
    (∀ sep ∈ absentItemList.Seps, sep.Typ = COMMA) ∧
    absentItemList.IsValid = false ∧
    ¬ (absentItemList.IsValid = true ↔
        ((absentItemList.Seps.length : Int) = (absentItemList.Items.length : Int) - 1 ∧
          ∀ sep ∈ absentItemList.Seps, sep.Typ = COMMA)) := by
  refine ⟨by decide, by decide, by decide, rfl, ?_⟩
  intro h
  have hv : absentItemList.IsValid = true := h.2 ⟨by decide, by decide⟩
  exact absurd hv (by decide)

/-- C2, amended: for every expression list with `N ≥ 1` items,
`ExprList.IsValid` is true iff the number of separators is `N - 1`, every
item is present, and every separator is a `COMMA`; with `N = 0` items it is
false. Scenario: items `[A, B]` with one comma are valid, with two commas
invalid. -/
theorem ExprList_arity_law :
    (∀ {χ : Type} (l : ExprList χ), 1 ≤ l.Items.length →
      (l.IsValid = true ↔
        (l.Seps.length : Int) = (l.Items.length : Int) - 1 ∧
        (∀ item ∈ l.Items, item ≠ none) ∧
        (∀ sep ∈ l.Seps, sep.Typ = COMMA))) ∧
    (∀ {χ : Type} (l : ExprList χ), l.Items.length = 0 → l.IsValid = false) ∧
    (∀ {χ : Type} (a b : χ) (s₁ s₂ : Token), s₁.Typ = COMMA → s₂.Typ = COMMA →
      ExprList.IsValid ⟨[some a, some b], [s₁]⟩ = true ∧
      ExprList.IsValid ⟨[some a, some b], [s₁, s₂]⟩ = false) := by
  refine ⟨?_, ?_, ?_⟩
  · intro χ l hN
    rw [ExprList_IsValid_iff]
    have hne : l.Items ≠ [] := by
      intro h
      rw [h] at hN
      simp at hN
    simp [hne, len]
  · intro χ l hN
    have hnil : l.Items = [] := List.length_eq_zero.1 hN
    cases hv : l.IsValid
    · rfl
    · exact absurd hnil ((ExprList_IsValid_iff l).1 hv).1
  · intro χ a b s₁ s₂ h₁ h₂
    constructor
    · rw [ExprList_IsValid_iff]
      simp [len, h₁]
    · cases hv : ExprList.IsValid ⟨[some a, some b], [s₁, s₂]⟩
      · rfl
      · have h := ((ExprList_IsValid_iff _).1 hv).2.1
        simp [len] at h

/-- Witness for C2 (amended): the laws evaluated on `[A, B]` with one and two
commas, and on a one-item list. -/
theorem ExprList_arity_law_witness :
    (ExprList.IsValid ⟨[some varA, some varB], [tok COMMA]⟩ = true ∧
      ExprList.IsValid ⟨[some varA, some varB], [tok COMMA, tok COMMA]⟩ = false) ∧
    (ExprList.IsValid (ExprList.mk [some varA] []) = true ↔
      (([] : List Token).length : Int) = ([some varA].length : Int) - 1 ∧
      (∀ item ∈ [some varA], item ≠ none) ∧
      (∀ sep ∈ ([] : List Token), sep.Typ = COMMA)) :=
  ⟨ExprList_arity_law.2.2 varA varB (tok COMMA) (tok COMMA) rfl rfl,
   ExprList_arity_law.1 (ExprList.mk [some varA] []) (by decide)⟩

/-- C3: for every table-entry list with `N ≥ 0` items, all present,
`EntryList.IsValid` is true iff the number of separators is `N`, or is
`N - 1` with `N ≥ 1`, and every separator is a `COMMA` or a `SEMICOLON`; for
`N = 0` it is valid exactly when there are no separators. -/
theorem EntryList_arity_law :
    (∀ {χ : Type} (l : EntryList χ), (∀ entry ∈ l.Items, entry ≠ none) →
      (l.IsValid = true ↔
        ((l.Seps.length : Int) = (l.Items.length : Int) ∨
          (1 ≤ l.Items.length ∧ (l.Seps.length : Int) = (l.Items.length : Int) - 1)) ∧
        (∀ sep ∈ l.Seps, sep.Typ = COMMA ∨ sep.Typ = SEMICOLON))) ∧
    (∀ {χ : Type} (l : EntryList χ), l.Items = [] →
      (l.IsValid = true ↔ l.Seps = [])) := by
  refine ⟨?_, ?_⟩
  · intro χ l hpres
    rw [EntryList_IsValid_iff]
    have harith : (len l.Seps = len l.Items ∨ len l.Seps = len l.Items - 1) ↔
        ((l.Seps.length : Int) = (l.Items.length : Int) ∨
          (1 ≤ l.Items.length ∧ (l.Seps.length : Int) = (l.Items.length : Int) - 1)) := by
      unfold len
      omega
    rw [harith]
    constructor
    · rintro ⟨h1, _, h3⟩
      exact ⟨h1, h3⟩
    · rintro ⟨h1, h3⟩
      exact ⟨h1, hpres, h3⟩
  · intro χ l hnil
    rw [EntryList_IsValid_iff, hnil]
    constructor
    · rintro ⟨h1, _, _⟩
      have h0 : l.Seps.length = 0 := by
        simp only [len, List.length_nil] at h1
        omega
      exact List.length_eq_zero.1 h0
    · intro hs
      rw [hs]
      simp [len]

/-- Witness for C3: the law evaluated on a one-entry list with a trailing
semicolon, and on the empty list. -/
theorem EntryList_arity_law_witness :
    (EntryList.IsValid (EntryList.mk [some varA] [tok SEMICOLON]) = true ↔
      ((([tok SEMICOLON].length : Int) = ([some varA].length : Int) ∨
          (1 ≤ [some varA].length ∧
            ([tok SEMICOLON].length : Int) = ([some varA].length : Int) - 1)) ∧
        (∀ sep ∈ [tok SEMICOLON], sep.Typ = COMMA ∨ sep.Typ = SEMICOLON))) ∧
    (EntryList.IsValid (EntryList.mk ([] : List (Option Node)) []) = true ↔
      ([] : List Token) = []) :=
  ⟨EntryList_arity_law.1 (EntryList.mk [some varA] [tok SEMICOLON]) (by simp),
   EntryList_arity_law.2 (EntryList.mk ([] : List (Option Node)) []) rfl⟩

/-- C4: for every block, `Block.IsValid` is true iff the number of items
equals the number of separators, every item is present, and every separator
is a `SEMICOLON` or the absent sentinel `INVALID`; the empty block is
valid. -/
theorem Block_valid_iff :
    (∀ {χ : Type} (b : Block χ),
      b.IsValid = true ↔
        b.Items.length = b.Seps.length ∧
        (∀ stmt ∈ b.Items, stmt ≠ none) ∧
        (∀ sep ∈ b.Seps, sep.Typ = SEMICOLON ∨ sep.Typ = INVALID)) ∧
    (∀ {χ : Type}, Block.IsValid (Block.mk ([] : List (Option χ)) []) = true) := by
  refine ⟨?_, ?_⟩
  · intro χ b
    rw [Block_IsValid_iff]
    have harith : len b.Seps = len b.Items ↔ b.Items.length = b.Seps.length := by
      unfold len
      omega
    rw [harith]
  · intro χ
    rfl

/-- C5: for every name list, `NameList.IsValid` is true iff the list is
non-empty, the number of separators is the number of items minus one, every
item token is a `NAME`, and every separator is a `COMMA`. -/
theorem NameList_valid_iff (l : NameList) :
    l.IsValid = true ↔
      l.Items ≠ [] ∧
      (l.Seps.length : Int) = (l.Items.length : Int) - 1 ∧
      (∀ item ∈ l.Items, item.Typ = NAME) ∧
      (∀ sep ∈ l.Seps, sep.Typ = COMMA) := by
  rw [NameList_IsValid_iff]
  rfl

/-! ### Optional clauses: C6 - C10 -/

/-- C6: for every function expression, `FunctionExpr.IsValid` is true iff
the four anchors are `FUNCTION`, `LPAREN`, `RPAREN`, `END` and one of:
marker `VARARG` with parameters present and separator `COMMA`; marker
`VARARG` with parameters absent and separator `INVALID`; marker `INVALID`
with separator `INVALID`. In particular a separator without a marker is
invalid, and a marker without a separator is invalid when a parameter list
exists. -/
theorem FunctionExpr_tristate :
    (∀ {χ : Type} (e : FunctionExpr χ),
      e.IsValid = true ↔
        e.FuncToken.Typ = FUNCTION ∧ e.LParenToken.Typ = LPAREN ∧
        e.RParenToken.Typ = RPAREN ∧ e.EndToken.Typ = END ∧
        ((e.VarArgToken.Typ = VARARG ∧ e.Params ≠ none ∧ e.VarArgSepToken.Typ = COMMA) ∨
          (e.VarArgToken.Typ = VARARG ∧ e.Params = none ∧
            e.VarArgSepToken.Typ = INVALID) ∨
          (e.VarArgToken.Typ = INVALID ∧ e.VarArgSepToken.Typ = INVALID))) ∧
    (∀ {χ : Type} (e : FunctionExpr χ),
      e.VarArgToken.Typ ≠ VARARG → e.VarArgSepToken.Typ ≠ INVALID →
        e.IsValid = false) ∧
    (∀ {χ : Type} (e : FunctionExpr χ),
      e.VarArgToken.Typ = VARARG → e.VarArgSepToken.Typ = INVALID → e.Params ≠ none →
        e.IsValid = false) := by
  refine ⟨fun e => FunctionExpr_IsValid_iff e, ?_, ?_⟩
  · intro χ e hm hs
    rw [Bool.eq_false_iff, Ne, FunctionExpr_IsValid_iff]
    rintro ⟨_, _, _, _, h | h | h⟩
    · exact hm h.1
    · exact hm h.1
    · exact hs h.2
  · intro χ e hm hs hp
    rw [Bool.eq_false_iff, Ne, FunctionExpr_IsValid_iff]
    rintro ⟨_, _, _, _, h | h | h⟩
    · rw [hs] at h
      exact absurd h.2.2 (by decide)
    · exact hp h.2.1
    · rw [hm] at h
      exact absurd h.1 (by decide)

/-- Witness for C6: `function(a ...) end` with a comma separator but no
vararg marker is invalid, and `function(a ...)` with the marker but no
separator is invalid. -/
theorem FunctionExpr_tristate_witness :
    (funcExpr (some oneName) COMMA INVALID).IsValid = false ∧
    (funcExpr (some oneName) INVALID VARARG).IsValid = false :=
  ⟨FunctionExpr_tristate.2.1 (funcExpr (some oneName) COMMA INVALID)
      (by decide) (by decide),
   FunctionExpr_tristate.2.2 (funcExpr (some oneName) INVALID VARARG)
      rfl rfl (by simp [funcExpr])⟩

/-- C7: for every numeric `for` whose eight mandatory anchors and children
are well-formed, `NumericForStmt.IsValid` is true iff (step separator
`COMMA` and step present) or (step separator `INVALID` and step absent); so
it is true without separator and step, and false with a comma but no step.
If any of the eight mandatory anchors or children is wrong, it is false. -/
theorem NumericForStmt_step_clause :
    (∀ {χ : Type} (s : NumericForStmt χ),
      s.ForToken.Typ = FOR → s.NameToken.Typ = NAME → s.AssignToken.Typ = ASSIGN →
      s.Min ≠ none → s.MaxSepToken.Typ = COMMA → s.Max ≠ none →
      s.DoToken.Typ = DO → s.EndToken.Typ = END →
        (s.IsValid = true ↔
          ((s.StepSepToken.Typ = COMMA ∧ s.Step ≠ none) ∨
            (s.StepSepToken.Typ = INVALID ∧ s.Step = none))) ∧
        (s.StepSepToken.Typ = INVALID → s.Step = none → s.IsValid = true) ∧
        (s.StepSepToken.Typ = COMMA → s.Step = none → s.IsValid = false)) ∧
    (∀ {χ : Type} (s : NumericForStmt χ),
      ¬ (s.ForToken.Typ = FOR ∧ s.NameToken.Typ = NAME ∧ s.AssignToken.Typ = ASSIGN ∧
          s.Min ≠ none ∧ s.MaxSepToken.Typ = COMMA ∧ s.Max ≠ none ∧
          s.DoToken.Typ = DO ∧ s.EndToken.Typ = END) →
        s.IsValid = false) := by
  refine ⟨?_, ?_⟩
  · intro χ s h1 h2 h3 h4 h5 h6 h7 h8
    have hM : s.ForToken.Typ = FOR ∧ s.NameToken.Typ = NAME ∧ s.AssignToken.Typ = ASSIGN ∧
        s.Min ≠ none ∧ s.MaxSepToken.Typ = COMMA ∧ s.Max ≠ none ∧
        s.DoToken.Typ = DO ∧ s.EndToken.Typ = END := ⟨h1, h2, h3, h4, h5, h6, h7, h8⟩
    refine ⟨?_, ?_, ?_⟩
    · rw [NumericForStmt_IsValid_iff]
      exact ⟨fun h => h.2, fun h => ⟨hM, h⟩⟩
    · intro hs hp
      exact (NumericForStmt_IsValid_iff s).2 ⟨hM, Or.inr ⟨hs, hp⟩⟩
    · intro hs hp
      rw [Bool.eq_false_iff, Ne, NumericForStmt_IsValid_iff]
      rintro ⟨_, h | h⟩
      · exact h.2 hp
      · rw [hs] at h
        exact absurd h.1 (by decide)
  · intro χ s hM
    rw [Bool.eq_false_iff, Ne, NumericForStmt_IsValid_iff]
    exact fun h => hM h.1

/-- Witness for C7: `for i = 1, 10 do end` is valid without step separator
and step, invalid with a comma and no step; and with a wrong `do` anchor it
is invalid. -/
theorem NumericForStmt_step_clause_witness :
    (forLoop INVALID none).IsValid = true ∧
    (forLoop COMMA none).IsValid = false ∧
    NumericForStmt.IsValid { forLoop INVALID none with DoToken := tok THEN } = false :=
  ⟨(NumericForStmt_step_clause.1 (forLoop INVALID none) rfl rfl rfl (by simp [forLoop]) rfl
      (by simp [forLoop]) rfl rfl).2.1 rfl rfl,
   (NumericForStmt_step_clause.1 (forLoop COMMA none) rfl rfl rfl (by simp [forLoop]) rfl
      (by simp [forLoop]) rfl rfl).2.2 rfl rfl,
   NumericForStmt_step_clause.2 { forLoop INVALID none with DoToken := tok THEN }
      (fun h => absurd h.2.2.2.2.2.2.1 (by decide))⟩

/-- C8, as stated, fails: on `for i = 1, 10 do end`, of the four
combinations of step child (present/absent) and step separator
(`COMMA`/`INVALID`) only two are valid, not three: a step child without a
separator is rejected as well as a separator without a step child. -/
theorem NumericForStmt_three_of_four_fails :
    (forLoop COMMA (some numOne)).IsValid = true ∧
    (forLoop COMMA none).IsValid = false ∧
    (forLoop INVALID (some numOne)).IsValid = false ∧
    (forLoop INVALID none).IsValid = true ∧
    List.countP NumericForStmt.IsValid
      [forLoop COMMA (some numOne), forLoop COMMA none,
        forLoop INVALID (some numOne), forLoop INVALID none] ≠ 3 := by
  refine ⟨rfl, rfl, rfl, rfl, ?_⟩
  decide

/-- C8, amended: for every numeric `for` whose eight mandatory anchors and
min/max children are well-formed, of the four combinations of step child
(present/absent) and step separator (`COMMA`/`INVALID`) exactly two are
valid (comma with step, no comma without step) and exactly two are invalid
(comma without step, step without comma). -/
theorem NumericForStmt_two_of_four {χ : Type} (s : NumericForStmt χ) (c : χ)
    (comma absent : Token)
    (hFor : s.ForToken.Typ = FOR) (hName : s.NameToken.Typ = NAME)
    (hAssign : s.AssignToken.Typ = ASSIGN) (hMin : s.Min ≠ none)
    (hMaxSep : s.MaxSepToken.Typ = COMMA) (hMax : s.Max ≠ none)
    (hDo : s.DoToken.Typ = DO) (hEnd : s.EndToken.Typ = END)
    (hComma : comma.Typ = COMMA) (hAbsent : absent.Typ = INVALID) :
    NumericForStmt.IsValid { s with StepSepToken := comma, Step := some c } = true ∧
    NumericForStmt.IsValid { s with StepSepToken := comma, Step := none } = false ∧
    NumericForStmt.IsValid { s with StepSepToken := absent, Step := some c } = false ∧
    NumericForStmt.IsValid { s with StepSepToken := absent, Step := none } = true ∧
    List.countP NumericForStmt.IsValid
      [{ s with StepSepToken := comma, Step := some c },
        { s with StepSepToken := comma, Step := none },
        { s with StepSepToken := absent, Step := some c },
        { s with StepSepToken := absent, Step := none }] = 2 := by
  have hM : s.ForToken.Typ = FOR ∧ s.NameToken.Typ = NAME ∧ s.AssignToken.Typ = ASSIGN ∧
      s.Min ≠ none ∧ s.MaxSepToken.Typ = COMMA ∧ s.Max ≠ none ∧
      s.DoToken.Typ = DO ∧ s.EndToken.Typ = END :=
    ⟨hFor, hName, hAssign, hMin, hMaxSep, hMax, hDo, hEnd⟩
  have e1 : NumericForStmt.IsValid { s with StepSepToken := comma, Step := some c } = true :=
    (NumericForStmt_IsValid_iff _).2 ⟨hM, Or.inl ⟨hComma, by simp⟩⟩
  have e2 : NumericForStmt.IsValid { s with StepSepToken := comma, Step := none } = false := by
    rw [Bool.eq_false_iff, Ne, NumericForStmt_IsValid_iff]
    rintro ⟨_, h | h⟩
    · exact h.2 rfl
    · have h1 : comma.Typ = INVALID := h.1
      rw [hComma] at h1
      exact absurd h1 (by decide)
  have e3 : NumericForStmt.IsValid { s with StepSepToken := absent, Step := some c } = false := by
    rw [Bool.eq_false_iff, Ne, NumericForStmt_IsValid_iff]
    rintro ⟨_, h | h⟩
    · have h1 : absent.Typ = COMMA := h.1
      rw [hAbsent] at h1
      exact absurd h1 (by decide)
    · exact absurd h.2 (by simp)
  have e4 : NumericForStmt.IsValid { s with StepSepToken := absent, Step := none } = true :=
    (NumericForStmt_IsValid_iff _).2 ⟨hM, Or.inr ⟨hAbsent, rfl⟩⟩
  refine ⟨e1, e2, e3, e4, ?_⟩
  simp [List.countP_cons, e1, e2, e3, e4]

/-- Witness for C8 (amended): the four combinations on
`for i = 1, 10 do end`. -/
theorem NumericForStmt_two_of_four_witness :
    NumericForStmt.IsValid
      { forLoop INVALID none with StepSepToken := tok COMMA, Step := some numOne } = true ∧
    NumericForStmt.IsValid
      { forLoop INVALID none with StepSepToken := tok COMMA, Step := none } = false ∧
    NumericForStmt.IsValid
      { forLoop INVALID none with StepSepToken := tok INVALID, Step := some numOne } = false ∧
    NumericForStmt.IsValid
      { forLoop INVALID none with StepSepToken := tok INVALID, Step := none } = true ∧
    List.countP NumericForStmt.IsValid
      [{ forLoop INVALID none with StepSepToken := tok COMMA, Step := some numOne },
        { forLoop INVALID none with StepSepToken := tok COMMA, Step := none },
        { forLoop INVALID none with StepSepToken := tok INVALID, Step := some numOne },
        { forLoop INVALID none with StepSepToken := tok INVALID, Step := none }] = 2 :=
  NumericForStmt_two_of_four (forLoop INVALID none) numOne (tok COMMA) (tok INVALID)
    rfl rfl rfl (by simp [forLoop]) rfl (by simp [forLoop]) rfl rfl rfl rfl

/-- C9: for every local-variable statement, `LocalVarStmt.IsValid` is true
iff the local token is `LOCAL` and either the assign token is `ASSIGN` with
the value list present, or the assign token is `INVALID` with the value list
absent; an assign token without values, values without an assign token, and
any other assign-token type are invalid. -/
theorem LocalVarStmt_initializer_clause :
    (∀ {χ : Type} (s : LocalVarStmt χ),
      s.IsValid = true ↔
        s.LocalToken.Typ = LOCAL ∧
        ((s.AssignToken.Typ = ASSIGN ∧ s.Values ≠ none) ∨
          (s.AssignToken.Typ = INVALID ∧ s.Values = none))) ∧
    (∀ {χ : Type} (s : LocalVarStmt χ),
      s.AssignToken.Typ = ASSIGN → s.Values = none → s.IsValid = false) ∧
    (∀ {χ : Type} (s : LocalVarStmt χ),
      s.AssignToken.Typ ≠ ASSIGN → s.Values ≠ none → s.IsValid = false) ∧
    (∀ {χ : Type} (s : LocalVarStmt χ),
      s.AssignToken.Typ ≠ ASSIGN → s.AssignToken.Typ ≠ INVALID → s.IsValid = false) := by
  refine ⟨fun s => LocalVarStmt_IsValid_iff s, ?_, ?_, ?_⟩
  · intro χ s ha hv
    rw [Bool.eq_false_iff, Ne, LocalVarStmt_IsValid_iff]
    rintro ⟨_, h | h⟩
    · exact h.2 hv
    · rw [ha] at h
      exact absurd h.1 (by decide)
  · intro χ s ha hv
    rw [Bool.eq_false_iff, Ne, LocalVarStmt_IsValid_iff]
    rintro ⟨_, h | h⟩
    · exact ha h.1
    · exact hv h.2
  · intro χ s ha hi
    rw [Bool.eq_false_iff, Ne, LocalVarStmt_IsValid_iff]
    rintro ⟨_, h | h⟩
    · exact ha h.1
    · exact hi h.1

/-- Witness for C9: `local a =` without values, `local a` with values but
no assign token, and `local a` with a comma in the assign slot are all
invalid. -/
theorem LocalVarStmt_initializer_clause_witness :
    (localVar ASSIGN none).IsValid = false ∧
    (localVar INVALID (some ⟨[some numOne], []⟩)).IsValid = false ∧
    (localVar COMMA none).IsValid = false :=
  ⟨LocalVarStmt_initializer_clause.2.1 (localVar ASSIGN none) rfl rfl,
   LocalVarStmt_initializer_clause.2.2.1 (localVar INVALID (some ⟨[some numOne], []⟩))
      (by decide) (by simp [localVar]),
   LocalVarStmt_initializer_clause.2.2.2 (localVar COMMA none) (by decide) (by decide)⟩

/-- C10: for every qualified function name, `FuncNameList.IsValid` is true
iff the list is non-empty, the number of separators is the number of items
minus one, every item token is a `NAME`, every separator is a `DOT`, and
either the colon token is `COLON` with method token `NAME`, or both are
`INVALID`. -/
theorem FuncNameList_valid_iff (l : FuncNameList) :
    l.IsValid = true ↔
      l.Items ≠ [] ∧
      (l.Seps.length : Int) = (l.Items.length : Int) - 1 ∧
      (∀ item ∈ l.Items, item.Typ = NAME) ∧
      (∀ sep ∈ l.Seps, sep.Typ = DOT) ∧
      ((l.ColonToken.Typ = COLON ∧ l.MethodToken.Typ = NAME) ∨
        (l.ColonToken.Typ = INVALID ∧ l.MethodToken.Typ = INVALID)) := by
  rw [FuncNameList_IsValid_iff]
  rfl

/-! ### Characterisations of the conjunctive predicates -/

theorem MethodExpr_IsValid_iff {χ : Type} (e : MethodExpr χ) :
    e.IsValid = true ↔
      e.Value ≠ none ∧ e.ColonToken.Typ = COLON ∧ e.NameToken.Typ = NAME ∧
      e.Args ≠ none := by
  simp [MethodExpr.IsValid, ist_eq_true, isv_eq_true, and_assoc]

theorem FieldExpr_IsValid_iff {χ : Type} (e : FieldExpr χ) :
    e.IsValid = true ↔
      e.Value ≠ none ∧ e.DotToken.Typ = DOT ∧ e.NameToken.Typ = NAME := by
  simp [FieldExpr.IsValid, ist_eq_true, isv_eq_true, and_assoc]

theorem IndexExpr_IsValid_iff {χ : Type} (e : IndexExpr χ) :
    e.IsValid = true ↔
      e.Value ≠ none ∧ e.LBrackToken.Typ = LBRACK ∧ e.Index ≠ none ∧
      e.RBrackToken.Typ = RBRACK := by
  simp [IndexExpr.IsValid, ist_eq_true, isv_eq_true, and_assoc]

theorem CallExpr_IsValid_iff {χ : Type} (e : CallExpr χ) :
    e.IsValid = true ↔ e.Value ≠ none ∧ e.Args ≠ none := by
  simp [CallExpr.IsValid, isv_eq_true]

theorem DoStmt_IsValid_iff {χ : Type} (s : DoStmt χ) :
    s.IsValid = true ↔ s.DoToken.Typ = DO ∧ s.EndToken.Typ = END := by
  simp [DoStmt.IsValid, ist_eq_true]

theorem IfStmt_IsValid_iff {χ : Type} (s : IfStmt χ) :
    s.IsValid = true ↔
      s.IfToken.Typ = IF ∧ s.Cond ≠ none ∧ s.ThenToken.Typ = THEN ∧
      s.EndToken.Typ = END := by
  simp [IfStmt.IsValid, ist_eq_true, isv_eq_true, and_assoc]

theorem WhileStmt_IsValid_iff {χ : Type} (s : WhileStmt χ) :
    s.IsValid = true ↔
      s.WhileToken.Typ = WHILE ∧ s.Cond ≠ none ∧ s.DoToken.Typ = DO ∧
      s.EndToken.Typ = END := by
  simp [WhileStmt.IsValid, ist_eq_true, isv_eq_true, and_assoc]

theorem RepeatStmt_IsValid_iff {χ : Type} (s : RepeatStmt χ) :
    s.IsValid = true ↔
      s.RepeatToken.Typ = REPEAT ∧ s.UntilToken.Typ = UNTIL ∧ s.Cond ≠ none := by
  simp [RepeatStmt.IsValid, ist_eq_true, isv_eq_true, and_assoc]

theorem GenericForStmt_IsValid_iff {χ : Type} (s : GenericForStmt χ) :
    s.IsValid = true ↔
      s.ForToken.Typ = FOR ∧ s.InToken.Typ = IN ∧ s.DoToken.Typ = DO ∧
      s.EndToken.Typ = END := by
  simp [GenericForStmt.IsValid, ist_eq_true, and_assoc]

theorem UnopExpr_IsValid_iff {χ : Type} (e : UnopExpr χ) :
    e.IsValid = true ↔ e.UnopToken.Typ.IsUnary = true ∧ e.Operand ≠ none := by
  simp [UnopExpr.IsValid, isv_eq_true]

theorem BinopExpr_IsValid_iff {χ : Type} (e : BinopExpr χ) :
    e.IsValid = true ↔
      e.Left ≠ none ∧ e.BinopToken.Typ.IsBinary = true ∧ e.Right ≠ none := by
  simp [BinopExpr.IsValid, isv_eq_true, and_assoc]

/-! ### Calls, accesses and keyword statements: C11 - C16 -/

/-- C11: a method call with receiver present, colon token `COLON`, name
token `NAME` and arguments present is valid; changing only the colon token
to a token of any other type, the absent sentinel `INVALID` included, makes
it invalid. -/
theorem MethodExpr_call_scenario :
    (∀ {χ : Type} (e : MethodExpr χ),
      e.Value ≠ none → e.ColonToken.Typ = COLON → e.NameToken.Typ = NAME →
      e.Args ≠ none → e.IsValid = true) ∧
    (∀ {χ : Type} (e : MethodExpr χ) (t : Token),
      e.Value ≠ none → e.ColonToken.Typ = COLON → e.NameToken.Typ = NAME →
      e.Args ≠ none → t.Typ ≠ COLON →
        MethodExpr.IsValid { e with ColonToken := t } = false) := by
  refine ⟨?_, ?_⟩
  · intro χ e hv hc hn ha
    exact (MethodExpr_IsValid_iff e).2 ⟨hv, hc, hn, ha⟩
  · intro χ e t _ _ _ _ ht
    rw [Bool.eq_false_iff, Ne, MethodExpr_IsValid_iff]
    intro h
    exact ht h.2.1

/-- Witness for C11: `A:m()` is valid; with the colon token replaced by a
`DOT` token, or by the absent sentinel, it is invalid. -/
theorem MethodExpr_call_scenario_witness :
    (methodCall COLON).IsValid = true ∧
    MethodExpr.IsValid { methodCall COLON with ColonToken := tok DOT } = false ∧
    MethodExpr.IsValid { methodCall COLON with ColonToken := tok INVALID } = false :=
  ⟨MethodExpr_call_scenario.1 (methodCall COLON)
      (by simp [methodCall]) rfl rfl (by simp [methodCall]),
   MethodExpr_call_scenario.2 (methodCall COLON) (tok DOT)
      (by simp [methodCall]) rfl rfl (by simp [methodCall]) (by decide),
   MethodExpr_call_scenario.2 (methodCall COLON) (tok INVALID)
      (by simp [methodCall]) rfl rfl (by simp [methodCall]) (by decide)⟩

/-- C12: `FieldExpr.IsValid` iff the receiver is present, the dot token is
`DOT` and the name token is `NAME`; `IndexExpr.IsValid` iff the receiver is
present, the bracket tokens are `LBRACK` and `RBRACK` and the index is
present; `CallExpr.IsValid` iff the receiver and the arguments are
present. -/
theorem access_and_call_valid_iff :
    (∀ {χ : Type} (e : FieldExpr χ),
      e.IsValid = true ↔
        e.Value ≠ none ∧ e.DotToken.Typ = DOT ∧ e.NameToken.Typ = NAME) ∧
    (∀ {χ : Type} (e : IndexExpr χ),
      e.IsValid = true ↔
        e.Value ≠ none ∧ e.LBrackToken.Typ = LBRACK ∧ e.Index ≠ none ∧
        e.RBrackToken.Typ = RBRACK) ∧
    (∀ {χ : Type} (e : CallExpr χ),
      e.IsValid = true ↔ e.Value ≠ none ∧ e.Args ≠ none) :=
  ⟨fun e => FieldExpr_IsValid_iff e, fun e => IndexExpr_IsValid_iff e,
   fun e => CallExpr_IsValid_iff e⟩

/-- C13, as stated, fails for the generic `for`: the statement
`for in do end`, which has no names and no expressions (both of its lists
are empty, and its name list is itself invalid), is reported valid, because
`GenericForStmt.IsValid` reads the four anchor tokens only. -/
theorem GenericForStmt_valid_without_names_and_exprs :
    bareGenericFor.IsValid = true ∧
    bareGenericFor.Names.Items = [] ∧
    bareGenericFor.Exprs.Items = [] ∧
    bareGenericFor.Names.IsValid = false ∧
    bareGenericFor.Exprs.IsValid = false := by
  refine ⟨rfl, rfl, rfl, rfl, rfl⟩

/-- C13, amended: `DoStmt.IsValid` iff (`DO`, `END`); `IfStmt.IsValid` iff
(`IF`, condition present, `THEN`, `END`); `WhileStmt.IsValid` iff (`WHILE`,
condition present, `DO`, `END`); `RepeatStmt.IsValid` iff (`REPEAT`,
`UNTIL`, condition present); `GenericForStmt.IsValid` iff (`FOR`, `IN`,
`DO`, `END`), whatever its name list and expression list hold. -/
theorem keyword_statements_valid_iff :
    (∀ {χ : Type} (s : DoStmt χ),
      s.IsValid = true ↔ s.DoToken.Typ = DO ∧ s.EndToken.Typ = END) ∧
    (∀ {χ : Type} (s : IfStmt χ),
      s.IsValid = true ↔
        s.IfToken.Typ = IF ∧ s.Cond ≠ none ∧ s.ThenToken.Typ = THEN ∧
        s.EndToken.Typ = END) ∧
    (∀ {χ : Type} (s : WhileStmt χ),
      s.IsValid = true ↔
        s.WhileToken.Typ = WHILE ∧ s.Cond ≠ none ∧ s.DoToken.Typ = DO ∧
        s.EndToken.Typ = END) ∧
    (∀ {χ : Type} (s : RepeatStmt χ),
      s.IsValid = true ↔
        s.RepeatToken.Typ = REPEAT ∧ s.UntilToken.Typ = UNTIL ∧ s.Cond ≠ none) ∧
    (∀ {χ : Type} (s : GenericForStmt χ),
      s.IsValid = true ↔
        s.ForToken.Typ = FOR ∧ s.InToken.Typ = IN ∧ s.DoToken.Typ = DO ∧
        s.EndToken.Typ = END) ∧
    (∀ {χ : Type} (s : GenericForStmt χ) (names : NameList) (exprs : ExprList χ),
      GenericForStmt.IsValid { s with Names := names, Exprs := exprs } = s.IsValid) :=
  ⟨fun s => DoStmt_IsValid_iff s, fun s => IfStmt_IsValid_iff s,
   fun s => WhileStmt_IsValid_iff s, fun s => RepeatStmt_IsValid_iff s,
   fun s => GenericForStmt_IsValid_iff s, fun _ _ _ => rfl⟩

/-- C14: `File.IsValid` is true iff the end-of-file token has type `EOF`,
whatever the body is; the minimal file built from the token stream that
holds only end-of-input is valid. -/
theorem File_valid_iff :
    (∀ {χ : Type} (f : File χ), f.IsValid = true ↔ f.EOFToken.Typ = EOF) ∧
    (∀ {χ : Type} (f : File χ) (body : Block χ),
      File.IsValid { f with Body := body } = f.IsValid) ∧
    minimalFile.IsValid = true := by
  refine ⟨?_, ?_, rfl⟩
  · intro χ f
    simp [File.IsValid, ist_eq_true]
  · intro χ f body
    rfl

/-- C15: changing only the else-if clause list and the else clause of an
`if` statement, to any clauses at all (also ones whose own `IsValid` is
false, also none), leaves `IfStmt.IsValid` unchanged. -/
theorem IfStmt_valid_frame {χ : Type} (s : IfStmt χ)
    (elseIfs : List (ElseIfClause χ)) (els : Option (ElseClause χ)) :
    IfStmt.IsValid { s with ElseIf := elseIfs, Else := els } = s.IsValid ∧
    IfStmt.IsValid { s with ElseIf := elseIfs } = s.IsValid ∧
    IfStmt.IsValid { s with Else := els } = s.IsValid :=
  ⟨rfl, rfl, rfl⟩

/-- C16: `UnopExpr.IsValid` is true iff the operator token's type is a unary
operator and the operand is present; `BinopExpr.IsValid` is true iff the
left operand is present, the operator token's type is a binary operator, and
the right operand is present. -/
theorem operator_exprs_valid_iff :
    (∀ {χ : Type} (e : UnopExpr χ),
      e.IsValid = true ↔ e.UnopToken.Typ.IsUnary = true ∧ e.Operand ≠ none) ∧
    (∀ {χ : Type} (e : BinopExpr χ),
      e.IsValid = true ↔
        e.Left ≠ none ∧ e.BinopToken.Typ.IsBinary = true ∧ e.Right ≠ none) :=
  ⟨fun e => UnopExpr_IsValid_iff e, fun e => BinopExpr_IsValid_iff e⟩

/-! ### Totality, constant predicates and ignored children: C17 - C20 -/

/-- C17: the five separated-list predicates are total functions into `Bool`:
for every item sequence and every separator sequence (empty ones and ones
of mismatched lengths included) each returns `true` or `false`, and a length
mismatch yields `false`. On empty sequences `Block` and `EntryList` return
`true`, and `ExprList`, `NameList` and `FuncNameList` return `false`. -/
theorem separated_lists_total :
    (∀ {χ : Type} (items : List (Option χ)) (seps : List Token),
      (Block.IsValid ⟨items, seps⟩ = true ∨ Block.IsValid ⟨items, seps⟩ = false) ∧
      (seps.length ≠ items.length → Block.IsValid ⟨items, seps⟩ = false)) ∧
    (∀ {χ : Type} (items : List (Option χ)) (seps : List Token),
      (ExprList.IsValid ⟨items, seps⟩ = true ∨ ExprList.IsValid ⟨items, seps⟩ = false) ∧
      ((seps.length : Int) ≠ (items.length : Int) - 1 →
        ExprList.IsValid ⟨items, seps⟩ = false)) ∧
    (∀ (items seps : List Token),
      (NameList.IsValid ⟨items, seps⟩ = true ∨ NameList.IsValid ⟨items, seps⟩ = false) ∧
      ((seps.length : Int) ≠ (items.length : Int) - 1 →
        NameList.IsValid ⟨items, seps⟩ = false)) ∧
    (∀ {χ : Type} (items : List (Option χ)) (seps : List Token),
      (EntryList.IsValid ⟨items, seps⟩ = true ∨ EntryList.IsValid ⟨items, seps⟩ = false) ∧
      (seps.length ≠ items.length → (seps.length : Int) ≠ (items.length : Int) - 1 →
        EntryList.IsValid ⟨items, seps⟩ = false)) ∧
    (∀ (items seps : List Token) (colon method : Token),
      (FuncNameList.IsValid ⟨items, seps, colon, method⟩ = true ∨
        FuncNameList.IsValid ⟨items, seps, colon, method⟩ = false) ∧
      ((seps.length : Int) ≠ (items.length : Int) - 1 →
        FuncNameList.IsValid ⟨items, seps, colon, method⟩ = false)) ∧
    (Block.IsValid (Block.mk ([] : List (Option Node)) []) = true ∧
      ExprList.IsValid (ExprList.mk ([] : List (Option Node)) []) = false ∧
      NameList.IsValid ⟨[], []⟩ = false ∧
      EntryList.IsValid (EntryList.mk ([] : List (Option Node)) []) = true ∧
      FuncNameList.IsValid ⟨[], [], tok INVALID, tok INVALID⟩ = false) := by
  refine ⟨?_, ?_, ?_, ?_, ?_, ⟨rfl, rfl, rfl, rfl, rfl⟩⟩
  · intro χ items seps
    refine ⟨by cases Block.IsValid ⟨items, seps⟩ <;> simp, ?_⟩
    intro hne
    rw [Bool.eq_false_iff, Ne, Block_IsValid_iff]
    rintro ⟨hlen, _⟩
    simp only [len] at hlen
    omega
  · intro χ items seps
    refine ⟨by cases ExprList.IsValid ⟨items, seps⟩ <;> simp, ?_⟩
    intro hne
    rw [Bool.eq_false_iff, Ne, ExprList_IsValid_iff]
    rintro ⟨_, hlen, _⟩
    exact hne hlen
  · intro items seps
    refine ⟨by cases NameList.IsValid ⟨items, seps⟩ <;> simp, ?_⟩
    intro hne
    rw [Bool.eq_false_iff, Ne, NameList_IsValid_iff]
    rintro ⟨_, hlen, _⟩
    exact hne hlen
  · intro χ items seps
    refine ⟨by cases EntryList.IsValid ⟨items, seps⟩ <;> simp, ?_⟩
    intro hne hne1
    rw [Bool.eq_false_iff, Ne, EntryList_IsValid_iff]
    rintro ⟨hlen | hlen, _⟩
    · simp only [len] at hlen
      omega
    · exact hne1 hlen
  · intro items seps colon method
    refine ⟨by cases FuncNameList.IsValid ⟨items, seps, colon, method⟩ <;> simp, ?_⟩
    intro hne
    rw [Bool.eq_false_iff, Ne, FuncNameList_IsValid_iff]
    rintro ⟨_, hlen, _⟩
    exact hne hlen

/-- Witness for C17: lists `[A, B]` with no separator at all are rejected by
`Block`, `ExprList` and `EntryList`, and name lists of two names with three
separators by `NameList` and `FuncNameList`. -/
theorem separated_lists_total_witness :
    Block.IsValid ⟨[some varA, some varB], []⟩ = false ∧
    ExprList.IsValid ⟨[some varA, some varB], []⟩ = false ∧
    NameList.IsValid ⟨[tok NAME, tok NAME], [tok COMMA, tok COMMA, tok COMMA]⟩ = false ∧
    EntryList.IsValid ⟨[some varA, some varB], []⟩ = false ∧
    FuncNameList.IsValid
      ⟨[tok NAME, tok NAME], [tok DOT, tok DOT, tok DOT], tok INVALID, tok INVALID⟩ = false :=
  ⟨(separated_lists_total.1 [some varA, some varB] []).2 (by decide),
   (separated_lists_total.2.1 [some varA, some varB] []).2 (by decide),
   (separated_lists_total.2.2.1 [tok NAME, tok NAME]
      [tok COMMA, tok COMMA, tok COMMA]).2 (by decide),
   (separated_lists_total.2.2.2.1 [some varA, some varB] []).2 (by decide) (by decide),
   (separated_lists_total.2.2.2.2.1 [tok NAME, tok NAME] [tok DOT, tok DOT, tok DOT]
      (tok INVALID) (tok INVALID)).2 (by decide)⟩

/-- C18: `TableArg.IsValid`, `StringArg.IsValid` and `FunctionStmt.IsValid`
return true for every node value; so a string argument whose token is not a
string literal, and a function statement with an empty name list, are
reported valid although the string expression and the name list inside are
not. -/
theorem constant_true_predicates :
    (∀ {χ : Type} (c : TableArg χ), c.IsValid = true) ∧
    (∀ (c : StringArg), c.IsValid = true) ∧
    (∀ {χ : Type} (s : FunctionStmt χ), s.IsValid = true) ∧
    (nameAsStringArg.IsValid = true ∧ nameAsStringArg.Value.IsValid = false) ∧
    (namelessFunction.IsValid = true ∧ namelessFunction.Name.IsValid = false) :=
  ⟨fun _ => rfl, fun _ => rfl, fun _ => rfl, ⟨rfl, rfl⟩, ⟨rfl, rfl⟩⟩

/-- Appending one `COMMA` token and one child to an expression list: the
result is valid iff the list was valid and the child is present. -/
theorem ExprList_append_IsValid_iff {χ : Type} (l : ExprList χ) (e : Option χ)
    (sep : Token) (hsep : sep.Typ = COMMA) :
    ExprList.IsValid ⟨l.Items ++ [e], l.Seps ++ [sep]⟩ = true ↔
      l.IsValid = true ∧ e ≠ none := by
  rw [ExprList_IsValid_iff, ExprList_IsValid_iff]
  simp only [len, List.length_append, List.length_singleton, List.mem_append,
    List.mem_singleton]
  constructor
  · rintro ⟨_, hlen, hitems, hseps⟩
    refine ⟨⟨?_, ?_, fun item hi => hitems item (Or.inl hi),
      fun s hs => hseps s (Or.inl hs)⟩, hitems e (Or.inr rfl)⟩
    · intro hnil
      rw [hnil] at hlen
      simp at hlen
      omega
    · push_cast at hlen
      omega
  · rintro ⟨⟨_, hlen, hitems, hseps⟩, he⟩
    refine ⟨by simp, ?_, ?_, ?_⟩
    · push_cast
      omega
    · rintro item (hi | hi)
      · exact hitems item hi
      · rw [hi]
        exact he
    · rintro s (hs | hs)
      · exact hseps s hs
      · rw [hs]
        exact hsep

/-- A one-item expression list whose item is present is valid. -/
theorem ExprList_singleton_IsValid {χ : Type} (a : χ) :
    ExprList.IsValid ⟨[some a], []⟩ = true := by
  rw [ExprList_IsValid_iff]
  simp [len]

/-- Appending any number of `, expr` pairs, one after the other, to a valid
expression list gives a valid expression list. -/
theorem ExprList_foldl_append_IsValid {χ : Type} (pairs : List (Token × χ))
    (hpairs : ∀ p ∈ pairs, p.1.Typ = COMMA) (l : ExprList χ) (hl : l.IsValid = true) :
    ExprList.IsValid
      (pairs.foldl (fun acc p => ⟨acc.Items ++ [some p.2], acc.Seps ++ [p.1]⟩) l) = true := by
  induction pairs generalizing l with
  | nil => exact hl
  | cons p rest ih =>
    rw [List.foldl_cons]
    apply ih
    · intro q hq
      exact hpairs q (List.mem_cons_of_mem p hq)
    · exact (ExprList_append_IsValid_iff l (some p.2) p.1
        (hpairs p (List.mem_cons_self p rest))).2 ⟨hl, by simp⟩

/-- C19: for every expression list `l`, every child `e` (possibly absent)
and every `COMMA` token, the list with the token appended to `l.Seps` and
`e` appended to `l.Items` is valid iff `l` is valid and `e` is present. So
an empty list is never extended into a valid one; a one-item list with a
present item is valid; appending `, expr` with a present `expr` to a valid
list gives a valid list; and the list a parser builds from one present item
by appending any number of `, expr` pairs one after the other is valid. -/
theorem ExprList_append_valid_iff :
    (∀ {χ : Type} (l : ExprList χ) (e : Option χ) (sep : Token), sep.Typ = COMMA →
      (ExprList.IsValid ⟨l.Items ++ [e], l.Seps ++ [sep]⟩ = true ↔
        l.IsValid = true ∧ e ≠ none)) ∧
    (∀ {χ : Type} (l : ExprList χ) (e : Option χ) (sep : Token), sep.Typ = COMMA →
      l.Items = [] → ExprList.IsValid ⟨l.Items ++ [e], l.Seps ++ [sep]⟩ = false) ∧
    (∀ {χ : Type} (a : χ), ExprList.IsValid ⟨[some a], []⟩ = true) ∧
    (∀ {χ : Type} (l : ExprList χ) (c : χ) (sep : Token), sep.Typ = COMMA →
      l.IsValid = true →
        ExprList.IsValid ⟨l.Items ++ [some c], l.Seps ++ [sep]⟩ = true) ∧
    (∀ {χ : Type} (a : χ) (pairs : List (Token × χ)),
      (∀ p ∈ pairs, p.1.Typ = COMMA) →
        ExprList.IsValid
          (pairs.foldl (fun acc p => ⟨acc.Items ++ [some p.2], acc.Seps ++ [p.1]⟩)
            ⟨[some a], []⟩) = true) := by
  refine ⟨?_, ?_, ?_, ?_, ?_⟩
  · intro χ l e sep hsep
    exact ExprList_append_IsValid_iff l e sep hsep
  · intro χ l e sep hsep hnil
    rw [Bool.eq_false_iff, Ne, ExprList_append_IsValid_iff l e sep hsep]
    rintro ⟨hv, _⟩
    exact ((ExprList_IsValid_iff l).1 hv).1 hnil
  · intro χ a
    exact ExprList_singleton_IsValid a
  · intro χ l c sep hsep hl
    exact (ExprList_append_IsValid_iff l (some c) sep hsep).2 ⟨hl, by simp⟩
  · intro χ a pairs hpairs
    exact ExprList_foldl_append_IsValid pairs hpairs _ (ExprList_singleton_IsValid a)

/-- Witness for C19: the one-item list `A` is valid; appending `, B` to it
gives the valid list `A, B`; building `A, B, 1` by two appends gives a valid
list; appending `, B` to the empty list gives an invalid list; and
appending a comma with an absent child to `A` gives an invalid list. -/
theorem ExprList_append_valid_iff_witness :
    ExprList.IsValid ⟨[some varA], []⟩ = true ∧
    ExprList.IsValid ⟨[some varA] ++ [some varB], [] ++ [tok COMMA]⟩ = true ∧
    ExprList.IsValid
      ([(tok COMMA, varB), (tok COMMA, numOne)].foldl
        (fun acc p => ⟨acc.Items ++ [some p.2], acc.Seps ++ [p.1]⟩)
        ⟨[some varA], []⟩) = true ∧
    ExprList.IsValid ⟨[] ++ [some varB], [] ++ [tok COMMA]⟩ = false ∧
    ¬ (ExprList.IsValid ⟨[some varA] ++ [none], [] ++ [tok COMMA]⟩ = true) :=
  ⟨ExprList_append_valid_iff.2.2.1 varA,
   ExprList_append_valid_iff.2.2.2.1 ⟨[some varA], []⟩ varB (tok COMMA) rfl
      (ExprList_append_valid_iff.2.2.1 varA),
   ExprList_append_valid_iff.2.2.2.2 varA [(tok COMMA, varB), (tok COMMA, numOne)]
      (by decide),
   ExprList_append_valid_iff.2.1 ⟨[], []⟩ (some varB) (tok COMMA) rfl rfl,
   fun h => absurd
      ((ExprList_append_valid_iff.1 ⟨[some varA], []⟩ none (tok COMMA) rfl).1 h).2
      (by simp)⟩

/-- C20: `AssignStmt.IsValid` is true iff the assign token is `ASSIGN`,
`ReturnStmt.IsValid` iff the return token is `RETURN`,
`LocalFunctionStmt.IsValid` iff the local token is `LOCAL` and the name
token is `NAME`, `TableCtor.IsValid` iff the brace tokens are `LBRACE` and
`RBRACE`, `ListArgs.IsValid` iff the parenthesis tokens are `LPAREN` and
`RPAREN`; and each result stays the same when the lists, values, function
body or contents of the node are replaced by any others. -/
theorem predicates_ignoring_children :
    (∀ {χ : Type} (s : AssignStmt χ), s.IsValid = true ↔ s.AssignToken.Typ = ASSIGN) ∧
    (∀ {χ : Type} (s : AssignStmt χ) (left right : ExprList χ),
      AssignStmt.IsValid { s with Left := left, Right := right } = s.IsValid) ∧
    (∀ {χ : Type} (s : ReturnStmt χ), s.IsValid = true ↔ s.ReturnToken.Typ = RETURN) ∧
    (∀ {χ : Type} (s : ReturnStmt χ) (values : Option (ExprList χ)),
      ReturnStmt.IsValid { s with Values := values } = s.IsValid) ∧
    (∀ {χ : Type} (s : LocalFunctionStmt χ),
      s.IsValid = true ↔ s.LocalToken.Typ = LOCAL ∧ s.NameToken.Typ = NAME) ∧
    (∀ {χ : Type} (s : LocalFunctionStmt χ) (func : FunctionExpr χ),
      LocalFunctionStmt.IsValid { s with Func := func } = s.IsValid) ∧
    (∀ {χ : Type} (e : TableCtor χ),
      e.IsValid = true ↔ e.LBraceToken.Typ = LBRACE ∧ e.RBraceToken.Typ = RBRACE) ∧
    (∀ {χ : Type} (e : TableCtor χ) (entries : EntryList χ),
      TableCtor.IsValid { e with Entries := entries } = e.IsValid) ∧
    (∀ {χ : Type} (c : ListArgs χ),
      c.IsValid = true ↔ c.LParenToken.Typ = LPAREN ∧ c.RParenToken.Typ = RPAREN) ∧
    (∀ {χ : Type} (c : ListArgs χ) (values : Option (ExprList χ)),
      ListArgs.IsValid { c with Values := values } = c.IsValid) := by
  refine ⟨?_, ?_, ?_, ?_, ?_, ?_, ?_, ?_, ?_, ?_⟩
  · intro χ s
    simp [AssignStmt.IsValid, ist_eq_true]
  · intro χ s left right
    rfl
  · intro χ s
    simp [ReturnStmt.IsValid, ist_eq_true]
  · intro χ s values
    rfl
  · intro χ s
    simp [LocalFunctionStmt.IsValid, ist_eq_true]
  · intro χ s func
    rfl
  · intro χ e
    simp [TableCtor.IsValid, ist_eq_true]
  · intro χ e entries
    rfl
  · intro χ c
    simp [ListArgs.IsValid, ist_eq_true]
  · intro χ c values
    rfl

end tree
